import Mathlib

/-!
# CT-Segmentation pipeline — shallow embedding and verification

A shallow embedding of `src/app.py` (a two-stage DICOM → NIfTI → segmentation
pipeline driven by a Qt UI) and proofs of the specification's claims about it.

Side effects of the Python code (thread-signal emissions, message boxes,
directory creation, subprocess launches) are modelled as explicit event traces;
the external world (the DICOM reader's answers, the external process's output
lines and exit code) is modelled as explicit environment records.
-/

namespace CTSeg

/-! ## Task catalog (`TOTAL_SEGMENTATOR_TASKS` in app.py) -/

def TOTAL_SEGMENTATOR_TASKS : List (String × List String) :=
  [("CT (default)",
    ["total", "lung_vessels", "body", "cerebral_bleed", "hip_implant",
     "pleural_pericard_effusion", "head_glands_cavities", "head_muscles",
     "headneck_bones_vessels", "headneck_muscles", "liver_vessels",
     "oculomotor_muscles", "lung_nodules", "kidney_cysts", "breasts",
     "liver_segments", "craniofacial_structures", "abdominal_muscles",
     "teeth", "trunk_cavities", "vertebrae_body", "brain_structures",
     "coronary_arteries", "face"]),
   ("MR (_mr)",
    ["total_mr", "body_mr", "vertebrae_mr", "liver_segments_mr",
     "appendicular_bones_mr", "tissue_types_mr", "face_mr",
     "thigh_shoulder_muscles_mr"]),
   ("Special / Licensed",
    ["heartchambers_highres", "appendicular_bones", "tissue_types",
     "tissue_4_types", "brain_aneurysm"])]

/-- The items of the `ts_task_box` combo box, in the order `__init__` adds
them: for each catalog group first the header item `--- <group> ---`, then the
group's tasks. -/
def taskBoxItems : List String :=
  (TOTAL_SEGMENTATOR_TASKS.map (fun g => ("--- " ++ g.1 ++ " ---") :: g.2)).flatten

/-! ## Python `max(xs, key=k)` (series selection in `DicomToNiftiWorker.run`)

CPython's `max` scans left to right keeping the current best and replaces it
only when the candidate's key is strictly greater, so on ties the earliest
element wins. -/

def pyFold {α : Type} (key : α → Nat) : α → List α → α
  | b, [] => b
  | b, y :: ys => pyFold key (if key b < key y then y else b) ys

def pyMax {α : Type} (key : α → Nat) : List α → Option α
  | [] => none
  | x :: xs => some (pyFold key x xs)

/-- `r` is the first element of `l` attaining the maximal key: everything
before it has a strictly smaller key, everything after it a key no larger. -/
def FirstArgmax {α : Type} (key : α → Nat) (l : List α) (r : α) : Prop :=
  ∃ l1 l2, l = l1 ++ r :: l2 ∧
    (∀ y ∈ l1, key y < key r) ∧ (∀ y ∈ l2, key y ≤ key r)

lemma pyFold_firstArgmax {α : Type} (key : α → Nat) :
    ∀ (xs : List α) (b : α), FirstArgmax key (b :: xs) (pyFold key b xs) := by
  intro xs
  induction xs with
  | nil =>
    intro b
    exact ⟨[], [], rfl, by simp, by simp⟩
  | cons y ys ih =>
    intro b
    simp only [pyFold]
    by_cases hlt : key b < key y
    · rw [if_pos hlt]
      obtain ⟨l1, l2, heq, hbefore, hafter⟩ := ih y
      refine ⟨b :: l1, l2, by rw [List.cons_append, ← heq], ?_, hafter⟩
      intro z hz
      rcases List.mem_cons.mp hz with hz | hz
      · subst hz
        -- key b < key y ≤ key of the fold result
        have hy : key y ≤ key (pyFold key y ys) := by
          rcases l1 with _ | ⟨h1, t1⟩
          · simp only [List.nil_append, List.cons.injEq] at heq
            exact le_of_eq (congrArg key heq.1)
          · simp only [List.cons_append, List.cons.injEq] at heq
            exact le_of_lt (hbefore _ (heq.1 ▸ List.mem_cons_self h1 t1))
        exact lt_of_lt_of_le hlt hy
      · exact hbefore z hz
    · rw [if_neg hlt]
      obtain ⟨l1, l2, heq, hbefore, hafter⟩ := ih b
      rcases l1 with _ | ⟨h1, t1⟩
      · -- the fold result is b itself; y joins the suffix
        simp only [List.nil_append, List.cons.injEq] at heq
        refine ⟨[], y :: l2, ?_, by simp, ?_⟩
        · rw [List.nil_append, ← heq.1, ← heq.2]
        · intro z hz
          rcases List.mem_cons.mp hz with hz | hz
          · subst hz
            rw [← heq.1]
            exact le_of_not_lt hlt
          · exact hafter z hz
      · -- the fold result lies inside ys; b and y join the strict prefix
        simp only [List.cons_append, List.cons.injEq] at heq
        refine ⟨b :: y :: t1, l2, ?_, ?_, hafter⟩
        · conv_lhs => rw [heq.2]
          simp
        · intro z hz
          rcases List.mem_cons.mp hz with hz | hz
          · subst hz
            exact hbefore _ (heq.1 ▸ List.mem_cons_self h1 t1)
          · rcases List.mem_cons.mp hz with hz | hz
            · subst hz
              have hb : key z ≤ key b := le_of_not_lt hlt
              exact lt_of_le_of_lt hb (hbefore _ (heq.1 ▸ List.mem_cons_self h1 t1))
            · exact hbefore z (List.mem_cons_of_mem _ hz)

lemma pyMax_firstArgmax {α : Type} (key : α → Nat) (l : List α) (h : l ≠ []) :
    ∃ r, pyMax key l = some r ∧ FirstArgmax key l r := by
  cases l with
  | nil => exact absurd rfl h
  | cons x xs => exact ⟨pyFold key x xs, rfl, pyFold_firstArgmax key xs x⟩

/-! ## Conversion worker (`DicomToNiftiWorker.run`)

The DICOM reader collaborator is abstracted by `ConvEnv`: the series ids
`GetGDCMSeriesIDs` returns, the per-series file lists `GetGDCMSeriesFileNames`
returns, and whether the decode-and-write step (`reader.Execute()` /
`sitk.WriteImage`) succeeds. The worker's observable behaviour is the trace of
events it performs, in order. -/

structure ConvEnv where
  seriesIds : List String
  filesFor : String → List String
  buildOk : Bool
  buildErr : String

inductive CEvent where
  | mkdirOut : CEvent
  | logEmit : String → CEvent
  | writeFile : String → CEvent
  | finishedEmit : Option String → CEvent
deriving DecidableEq

/-- The series-file-count key used by `max(series_ids, key=...)`. -/
def seriesKey (env : ConvEnv) (sid : String) : Nat := (env.filesFor sid).length

/-- `best_series = max(series_ids, key=lambda sid: len(...files(sid)))`. -/
def bestSeries (env : ConvEnv) : Option String :=
  pyMax (seriesKey env) env.seriesIds

/-- Trace of `DicomToNiftiWorker.run`. The Python body runs under
`try/except Exception`: `raise RuntimeError("No DICOM series found")` and any
decode/write failure land in the handler, which logs `ERROR: <e>` and emits
`finished(None)`; success writes the volume, logs the created path and emits
`finished(nifti_path)`. -/
def convRun (output_dir : String) (env : ConvEnv) : List CEvent :=
  let nifti_path := output_dir ++ "/ct.nii.gz"
  CEvent.mkdirOut ::
  CEvent.logEmit "Reading DICOM folder..." ::
  (match bestSeries env with
   | none =>
      [CEvent.logEmit "ERROR: No DICOM series found",
       CEvent.finishedEmit none]
   | some _ =>
      if env.buildOk then
        [CEvent.writeFile nifti_path,
         CEvent.logEmit ("NIfTI created: " ++ nifti_path),
         CEvent.finishedEmit (some nifti_path)]
      else
        [CEvent.logEmit ("ERROR: " ++ env.buildErr),
         CEvent.finishedEmit none])

/-! ## Process runner (`SegmentationWorker._run`)

The external process is abstracted by `Proc`: the lines its combined
stdout/stderr stream yields, and its exit code. `_run` emits every line
(rstripped) as a `log` signal while the stream is read, waits, and raises
`RuntimeError("Segmentation failed")` on a non-zero exit code. -/

structure Proc where
  outputLines : List String
  returncode : Int
deriving DecidableEq

/-- Python's `str.rstrip()` with no argument: drop trailing whitespace.
Implemented on the character list so that it reduces inside the kernel. -/
def rstrip (s : String) : String :=
  ⟨(s.data.reverse.dropWhile Char.isWhitespace).reverse⟩

/-- Python's `str.startswith`, on the character list. -/
def pyStartsWith (s pre : String) : Bool := pre.data.isPrefixOf s.data

/-- Python's `str.endswith`, on the character list. -/
def pyEndsWith (s suf : String) : Bool := suf.data.isSuffixOf s.data

/-- The log lines `for line in process.stdout: self.log.emit(line.rstrip())`
delivers, in stream order. -/
def procEmits : List String → List String
  | [] => []
  | l :: rest => rstrip l :: procEmits rest

/-- The exception `_run` raises after the stream is exhausted and the process
has exited: `RuntimeError("Segmentation failed")` iff `returncode != 0`. -/
def procRaises (p : Proc) : Option String :=
  if p.returncode = 0 then none else some "Segmentation failed"

inductive REvent where
  | logEmit : String → REvent
  | raised : String → REvent
deriving DecidableEq

/-- Full observable trace of one `_run cmd` call: every line delivery in
stream order, then (only at the very end) the failure if the exit code is
non-zero. -/
def runProcTrace (cmd : List String) (p : Proc) : List REvent :=
  let _ := cmd
  (procEmits p.outputLines).map REvent.logEmit ++
    (match procRaises p with
     | none => []
     | some e => [REvent.raised e])

lemma procEmits_eq_map (ls : List String) : procEmits ls = ls.map rstrip := by
  induction ls with
  | nil => rfl
  | cons l rest ih => simp [procEmits, ih]

/-! ## Segmentation worker (`SegmentationWorker`) -/

structure SegWorker where
  nifti_path : String
  output_dir : String
  method : String
  model : String
  device : String
  ts_task : String
deriving DecidableEq

inductive WEvent where
  | logEmit : String → WEvent
  | mkdirCall : String → WEvent
  | launch : List String → WEvent
  | finishedEmit : WEvent
deriving DecidableEq

/-- The command list built by `run_skellytour`. -/
def skellytourCmd (w : SegWorker) : List String :=
  ["skellytour", "-i", w.nifti_path, "-o", w.output_dir,
   "-m", w.model, "-d", w.device, "--overwrite"]

/-- `out_dir = self.output_dir / f"segmentations_{self.ts_task}"`. -/
def tsOutDir (w : SegWorker) : String :=
  w.output_dir ++ "/segmentations_" ++ w.ts_task

/-- The command list built by `run_totalsegmentator`. -/
def totalsegmentatorCmd (w : SegWorker) : List String :=
  ["TotalSegmentator", "-i", w.nifti_path, "-o", tsOutDir w, "-ta", w.ts_task]

/-- Events of `run_skellytour` up to and including the `_run` stream, paired
with the exception `_run` propagates (if any). -/
def run_skellytour (w : SegWorker) (p : Proc) : List WEvent × Option String :=
  (WEvent.logEmit "Running Skellytour..." ::
   WEvent.launch (skellytourCmd w) ::
   (procEmits p.outputLines).map WEvent.logEmit,
   procRaises p)

/-- Events of `run_totalsegmentator`: progress log, `out_dir.mkdir(exist_ok=True)`,
then the launch and the `_run` stream; paired with the propagated exception. -/
def run_totalsegmentator (w : SegWorker) (p : Proc) : List WEvent × Option String :=
  (WEvent.logEmit ("Running TotalSegmentator (task: " ++ w.ts_task ++ ")") ::
   WEvent.mkdirCall (tsOutDir w) ::
   WEvent.launch (totalsegmentatorCmd w) ::
   (procEmits p.outputLines).map WEvent.logEmit,
   procRaises p)

/-- Trace of `SegmentationWorker.run`: the method dispatch runs under
`try/except Exception`; on success `finished` is emitted, on an exception the
handler logs `ERROR: <e>` and emits `finished` as well. The `finished` signal
is `pyqtSignal()` — it carries no payload. -/
def segWorkerRun (w : SegWorker) (p : Proc) : List WEvent :=
  let r := if w.method = "Skellytour" then run_skellytour w p
           else run_totalsegmentator w p
  match r.2 with
  | none => r.1 ++ [WEvent.finishedEmit]
  | some e => r.1 ++ [WEvent.logEmit ("ERROR: " ++ e), WEvent.finishedEmit]

/-! ## The interactive surface (`SegmentationUI`)

The widget state: the three path attributes, the current texts of the combo
boxes, the enabled flags Qt keeps for the buttons and combo boxes, and the log
box contents. `conv_active` / `seg_active` are bookkeeping for whether a
`DicomToNiftiWorker` / `SegmentationWorker` started by the UI is still in
flight (set where the handler calls `worker.start()`, cleared when its
completion signal is handled). -/

structure UIState where
  dicom_dir : Option String
  output_dir : Option String
  nifti_path : Option String
  method_sel : String
  model_sel : String
  device_sel : String
  ts_task_sel : String
  model_enabled : Bool
  device_enabled : Bool
  ts_task_enabled : Bool
  btn_convert_enabled : Bool
  run_btn_enabled : Bool
  conv_active : Bool
  seg_active : Bool
  logs : List String
deriving DecidableEq

/-- Synchronous side effects a UI handler performs besides mutating widget
state: showing a warning message box, or starting a background worker. -/
inductive UIEffect where
  | warnBox : String → String → UIEffect
  | spawnConv : String → String → UIEffect
  | spawnSeg : SegWorker → UIEffect
deriving DecidableEq

/-- `self.log(text)`: append a line to the log box. -/
def uiLog (s : UIState) (t : String) : UIState := { s with logs := s.logs ++ [t] }

/-- `on_method_changed`: enable the Skellytour combos exactly when the method
is Skellytour, the task combo exactly otherwise. -/
def on_method_changed (s : UIState) (method : String) : UIState :=
  let skel := method = "Skellytour"
  { s with model_enabled := skel, device_enabled := skel,
           ts_task_enabled := ¬skel }

/-- `select_dicom`: the dialog result is stored and logged only when truthy
(a non-empty path). -/
def select_dicom (s : UIState) (path : String) : UIState :=
  if path ≠ "" then uiLog { s with dicom_dir := some path } ("DICOM: " ++ path)
  else s

/-- `select_output`. -/
def select_output (s : UIState) (path : String) : UIState :=
  if path ≠ "" then uiLog { s with output_dir := some path } ("Output: " ++ path)
  else s

/-- `convert_dicom`: precondition check on both directories (a message box and
an early return when one is unset), then log, disable the convert button and
start a `DicomToNiftiWorker`. -/
def convert_dicom (s : UIState) : UIState × List UIEffect :=
  match s.dicom_dir, s.output_dir with
  | some d, some o =>
      let s1 := uiLog s "Converting DICOM → NIfTI...\n"
      let s2 := { s1 with btn_convert_enabled := false, conv_active := true }
      (s2, [UIEffect.spawnConv d o])
  | _, _ => (s, [UIEffect.warnBox "Missing Input" "Select DICOM and output folders"])

/-- `on_nifti_done`: re-enable the convert button; on a non-null result store
it as `nifti_path` and log success, otherwise log failure. -/
def on_nifti_done (s : UIState) (nifti : Option String) : UIState :=
  let s1 := { s with btn_convert_enabled := true }
  match nifti with
  | some p => uiLog { s1 with nifti_path := some p } "\nNIfTI conversion done.\n"
  | none => uiLog s1 "\nNIfTI conversion failed.\n"

/-- `run_segmentation`: precondition check on `nifti_path`; group-header check
on the task combo's current text; MR advisory; then log, disable the run
button and start a `SegmentationWorker` built from the current widget values.
(`Path(self.output_dir)` in the worker constructor would itself fault were
`output_dir` still `None`; in every state reached through this UI,
`nifti_path` is only set after a conversion that required `output_dir` to be
set, so the `getD` default is never consulted on those states.) -/
def run_segmentation (s : UIState) : UIState × List UIEffect :=
  match s.nifti_path with
  | none => (s, [UIEffect.warnBox "Missing NIfTI" "Run DICOM → NIfTI first"])
  | some nifti =>
      let task := s.ts_task_sel
      if pyStartsWith task "---" then
        (s, [UIEffect.warnBox "Invalid Task" "Select a valid TotalSegmentator task"])
      else
        let s1 := if pyEndsWith task "_mr" then
                    uiLog s "⚠ WARNING: MR task selected. Ensure MR input.\n"
                  else s
        let s2 := uiLog s1 "Starting segmentation...\n"
        let s3 := { s2 with run_btn_enabled := false, seg_active := true }
        (s3, [UIEffect.spawnSeg
               ⟨nifti, s.output_dir.getD "", s.method_sel,
                s.model_sel, s.device_sel, task⟩])

/-- `on_finished`: re-enable the run button and log `Done.` — unconditionally,
since the `finished` signal carries no payload. -/
def on_finished (s : UIState) : UIState :=
  uiLog { s with run_btn_enabled := true } "\nDone.\n"

/-- The state right after `__init__`: nothing selected, both buttons enabled,
the method combo on its first item (`Skellytour`), the model/device combos on
their first items, the task combo on its first added item (the first group
header), and the trailing `on_method_changed(currentText())` call applied. -/
def initUI : UIState :=
  on_method_changed
    { dicom_dir := none, output_dir := none, nifti_path := none,
      method_sel := "Skellytour", model_sel := "low", device_sel := "gpu",
      ts_task_sel := taskBoxItems.headD "",
      model_enabled := true, device_enabled := true, ts_task_enabled := true,
      btn_convert_enabled := true, run_btn_enabled := true,
      conv_active := false, seg_active := false, logs := [] }
    "Skellytour"

/-- External stimuli the UI can receive: user interactions with its widgets
and the two worker-completion signals. -/
inductive UIEvent where
  | pickDicom : String → UIEvent
  | pickOutput : String → UIEvent
  | setMethod : String → UIEvent
  | setModel : String → UIEvent
  | setDevice : String → UIEvent
  | setTask : String → UIEvent
  | clickConvert : UIEvent
  | clickRun : UIEvent
  | convDone : Option String → UIEvent
  | segDone : UIEvent
deriving DecidableEq

/-- One stimulus. Qt semantics folded in: a disabled button emits no
`clicked` signal, a disabled combo box cannot be changed by the user, a combo
box can only be set to one of its items, and a combo-box change fires its
`currentTextChanged` handler. A completion signal can only arrive from a
worker that is in flight. -/
def step (s : UIState) (e : UIEvent) : UIState × List UIEffect :=
  match e with
  | UIEvent.pickDicom p => (select_dicom s p, [])
  | UIEvent.pickOutput p => (select_output s p, [])
  | UIEvent.setMethod m =>
      if m ∈ ["Skellytour", "TotalSegmentator"] then
        (on_method_changed { s with method_sel := m } m, [])
      else (s, [])
  | UIEvent.setModel m =>
      if s.model_enabled ∧ m ∈ ["low", "medium", "high"] then
        ({ s with model_sel := m }, [])
      else (s, [])
  | UIEvent.setDevice d =>
      if s.device_enabled ∧ d ∈ ["gpu", "cpu"] then
        ({ s with device_sel := d }, [])
      else (s, [])
  | UIEvent.setTask t =>
      if s.ts_task_enabled ∧ t ∈ taskBoxItems then
        ({ s with ts_task_sel := t }, [])
      else (s, [])
  | UIEvent.clickConvert =>
      if s.btn_convert_enabled then convert_dicom s else (s, [])
  | UIEvent.clickRun =>
      if s.run_btn_enabled then run_segmentation s else (s, [])
  | UIEvent.convDone r =>
      if s.conv_active then ({ on_nifti_done s r with conv_active := false }, [])
      else (s, [])
  | UIEvent.segDone =>
      if s.seg_active then ({ on_finished s with seg_active := false }, [])
      else (s, [])

/-- Run a sequence of stimuli from a state, keeping only the state. -/
def runTrace (s : UIState) : List UIEvent → UIState
  | [] => s
  | e :: rest => runTrace (step s e).1 rest

/-- States the UI can actually be in. -/
inductive Reachable : UIState → Prop where
  | init : Reachable initUI
  | next : ∀ {s : UIState} (e : UIEvent), Reachable s → Reachable (step s e).1

lemma runTrace_reachable (l : List UIEvent) (s : UIState) (h : Reachable s) :
    Reachable (runTrace s l) := by
  induction l generalizing s with
  | nil => exact h
  | cons e rest ih => exact ih _ (Reachable.next e h)

/-! ## Shared concrete scenarios -/

/-- Select both folders, convert, and let the conversion succeed. -/
def baseTrace : List UIEvent :=
  [UIEvent.pickDicom "/d", UIEvent.pickOutput "/out", UIEvent.clickConvert,
   UIEvent.convDone (some "/out/ct.nii.gz")]

/-- The UI state after one successful conversion, everything else untouched. -/
def convertedState : UIState := runTrace initUI baseTrace

/-! ## Supporting lemmas -/

lemma firstArgmax_mem_max {α : Type} (key : α → Nat) (l : List α) (r : α)
    (h : FirstArgmax key l r) : r ∈ l ∧ ∀ y ∈ l, key y ≤ key r := by
  obtain ⟨l1, l2, rfl, hb, ha⟩ := h
  refine ⟨by simp, ?_⟩
  intro y hy
  rcases List.mem_append.mp hy with hy | hy
  · exact le_of_lt (hb y hy)
  · rcases List.mem_cons.mp hy with rfl | hy
    · exact le_refl _
    · exact ha y hy

lemma finished_not_mem_body (w : SegWorker) (p : Proc) :
    WEvent.finishedEmit ∉
      (if w.method = "Skellytour" then run_skellytour w p
       else run_totalsegmentator w p).1 := by
  by_cases h : w.method = "Skellytour" <;>
    simp [h, run_skellytour, run_totalsegmentator]

/-- Invariant of every reachable UI state: an in-flight worker's start button
is disabled. -/
lemma active_button_disabled (s : UIState) (h : Reachable s) :
    (s.conv_active = true → s.btn_convert_enabled = false) ∧
    (s.seg_active = true → s.run_btn_enabled = false) := by
  induction h with
  | init =>
    exact ⟨fun hc => absurd hc (by decide), fun hc => absurd hc (by decide)⟩
  | @next s e _ ih =>
    cases e with
    | pickDicom p =>
      simp only [step, select_dicom]
      split <;> exact ih
    | pickOutput p =>
      simp only [step, select_output]
      split <;> exact ih
    | setMethod m =>
      simp only [step]
      split <;> exact ih
    | setModel m =>
      simp only [step]
      split <;> exact ih
    | setDevice d =>
      simp only [step]
      split <;> exact ih
    | setTask t =>
      simp only [step]
      split <;> exact ih
    | clickConvert =>
      simp only [step]
      split
      · simp only [convert_dicom]
        split
        · exact ⟨fun _ => rfl, ih.2⟩
        · exact ih
      · exact ih
    | clickRun =>
      simp only [step]
      split
      · simp only [run_segmentation]
        split
        · exact ih
        · split
          · exact ih
          · split
            · exact ⟨ih.1, fun _ => rfl⟩
            · exact ⟨ih.1, fun _ => rfl⟩
      · exact ih
    | convDone r =>
      simp only [step]
      split
      · cases r <;> exact ⟨fun h => Bool.noConfusion h, ih.2⟩
      · exact ih
    | segDone =>
      simp only [step]
      split
      · exact ⟨ih.1, fun h => Bool.noConfusion h⟩
      · exact ih

/-! ## Claims -/

/-- C1: requesting segmentation while `nifti_path` is unset fails fast with
the precondition message box, changes nothing and spawns no worker; and no
stimulus whatsoever can spawn a segmentation worker from a state whose
`nifti_path` is unset. -/
theorem C1_segmentation_requires_volume :
    (∀ s : UIState, s.nifti_path = none →
       run_segmentation s =
         (s, [UIEffect.warnBox "Missing NIfTI" "Run DICOM → NIfTI first"])) ∧
    (∀ (s : UIState) (e : UIEvent) (w : SegWorker),
       UIEffect.spawnSeg w ∈ (step s e).2 → s.nifti_path ≠ none) := by
  constructor
  · intro s h
    simp [run_segmentation, h]
  · intro s e w hmem
    cases e with
    | pickDicom p => exact absurd hmem (List.not_mem_nil _)
    | pickOutput p => exact absurd hmem (List.not_mem_nil _)
    | setMethod m =>
      simp only [step] at hmem
      split at hmem <;> exact absurd hmem (List.not_mem_nil _)
    | setModel m =>
      simp only [step] at hmem
      split at hmem <;> exact absurd hmem (List.not_mem_nil _)
    | setDevice d =>
      simp only [step] at hmem
      split at hmem <;> exact absurd hmem (List.not_mem_nil _)
    | setTask t =>
      simp only [step] at hmem
      split at hmem <;> exact absurd hmem (List.not_mem_nil _)
    | clickConvert =>
      simp only [step] at hmem
      split at hmem
      · simp only [convert_dicom] at hmem
        split at hmem <;> simp at hmem
      · exact absurd hmem (List.not_mem_nil _)
    | clickRun =>
      simp only [step] at hmem
      split at hmem
      · cases hn : s.nifti_path with
        | none => simp [run_segmentation, hn] at hmem
        | some v => simp [hn]
      · exact absurd hmem (List.not_mem_nil _)
    | convDone r =>
      simp only [step] at hmem
      split at hmem <;> exact absurd hmem (List.not_mem_nil _)
    | segDone =>
      simp only [step] at hmem
      split at hmem <;> exact absurd hmem (List.not_mem_nil _)

/-- C1 witness: in the freshly initialized UI no volume exists, and the run
request is refused with the precondition message box. -/
theorem C1_witness :
    run_segmentation initUI =
      (initUI, [UIEffect.warnBox "Missing NIfTI" "Run DICOM → NIfTI first"]) :=
  C1_segmentation_requires_volume.1 initUI rfl

/-- C2: on any directory scan yielding at least one series, the selection
returns the series whose file list has the greatest count; on a tie the first
one in enumeration order wins (selection is a pure function of the
enumeration, hence deterministic for a given enumeration order). -/
theorem C2_best_series_is_first_max (env : ConvEnv) (h : env.seriesIds ≠ []) :
    ∃ r, bestSeries env = some r ∧ r ∈ env.seriesIds ∧
      (∀ x ∈ env.seriesIds, seriesKey env x ≤ seriesKey env r) ∧
      FirstArgmax (seriesKey env) env.seriesIds r := by
  obtain ⟨r, hr, hfa⟩ := pyMax_firstArgmax (seriesKey env) env.seriesIds h
  obtain ⟨hmem, hmax⟩ := firstArgmax_mem_max _ _ _ hfa
  exact ⟨r, hr, hmem, hmax, hfa⟩

/-- C2 witness: three series of sizes 2, 2, 1 — the first of the two tied
largest series is selected. -/
theorem C2_witness :
    (ConvEnv.seriesIds ⟨["s1", "s2", "s3"],
       (fun sid => if sid = "s3" then ["e"] else ["a", "b"]), true, ""⟩ ≠ []) ∧
    ∃ r, bestSeries ⟨["s1", "s2", "s3"],
       (fun sid => if sid = "s3" then ["e"] else ["a", "b"]), true, ""⟩ = some r ∧
      r ∈ ["s1", "s2", "s3"] ∧
      (∀ x ∈ ["s1", "s2", "s3"],
        seriesKey ⟨["s1", "s2", "s3"],
          (fun sid => if sid = "s3" then ["e"] else ["a", "b"]), true, ""⟩ x ≤
        seriesKey ⟨["s1", "s2", "s3"],
          (fun sid => if sid = "s3" then ["e"] else ["a", "b"]), true, ""⟩ r) ∧
      FirstArgmax (seriesKey ⟨["s1", "s2", "s3"],
          (fun sid => if sid = "s3" then ["e"] else ["a", "b"]), true, ""⟩)
        ["s1", "s2", "s3"] r :=
  ⟨by decide, C2_best_series_is_first_max _ (by decide)⟩

/-- C3: when the directory scan yields zero series identifiers the conversion
worker logs the `No DICOM series found` error, emits a null completion, and
writes no volume file. -/
theorem C3_no_series_aborts (output_dir : String) (env : ConvEnv)
    (h : env.seriesIds = []) :
    convRun output_dir env =
      [CEvent.mkdirOut, CEvent.logEmit "Reading DICOM folder...",
       CEvent.logEmit "ERROR: No DICOM series found", CEvent.finishedEmit none] ∧
    ∀ p, CEvent.writeFile p ∉ convRun output_dir env := by
  have hb : bestSeries env = none := by
    unfold bestSeries
    rw [h]
    rfl
  constructor
  · simp [convRun, hb]
  · intro p
    simp [convRun, hb]

/-- C3 witness: an empty scan produces exactly the abort trace. -/
theorem C3_witness :
    ConvEnv.seriesIds ⟨[], (fun _ => []), true, ""⟩ = [] ∧
    (convRun "/out" ⟨[], (fun _ => []), true, ""⟩ =
      [CEvent.mkdirOut, CEvent.logEmit "Reading DICOM folder...",
       CEvent.logEmit "ERROR: No DICOM series found", CEvent.finishedEmit none] ∧
     ∀ p, CEvent.writeFile p ∉ convRun "/out" ⟨[], (fun _ => []), true, ""⟩) :=
  ⟨rfl, C3_no_series_aborts "/out" _ rfl⟩

/-- C4 counterexample: the failure raised after a non-zero exit is the fixed
`RuntimeError("Segmentation failed")` — the very same trace for two different
commands — so the failure does not carry the command name. -/
theorem C4_counterexample :
    runProcTrace ["TotalSegmentator", "-i", "/out/ct.nii.gz"] ⟨["l1", "l2", "l3"], 1⟩ =
      runProcTrace ["skellytour"] ⟨["l1", "l2", "l3"], 1⟩ ∧
    runProcTrace ["TotalSegmentator", "-i", "/out/ct.nii.gz"] ⟨["l1", "l2", "l3"], 1⟩ =
      [REvent.logEmit "l1", REvent.logEmit "l2", REvent.logEmit "l3",
       REvent.raised "Segmentation failed"] ∧
    ("Segmentation failed" : String) ≠ "TotalSegmentator" := by
  refine ⟨rfl, by decide, by decide⟩

/-- C4 (amended): a process exiting non-zero after emitting its lines yields
exactly those line deliveries, rstripped, in stream order, followed by one
failure at the very end — whose message is the fixed `Segmentation failed`,
independent of the command. -/
theorem C4_amended_lines_then_failure (cmd cmd2 : List String) (p : Proc)
    (h : p.returncode ≠ 0) :
    runProcTrace cmd p =
      p.outputLines.map (fun l => REvent.logEmit (rstrip l)) ++
        [REvent.raised "Segmentation failed"] ∧
    runProcTrace cmd p = runProcTrace cmd2 p := by
  constructor
  · unfold runProcTrace procRaises
    rw [if_neg h, procEmits_eq_map, List.map_map]
    rfl
  · rfl

/-- C4 witness: three lines then exit code 1. -/
theorem C4_witness :
    ((1 : Int) ≠ 0) ∧
    (runProcTrace ["TotalSegmentator"] ⟨["a", "b", "c"], 1⟩ =
      (["a", "b", "c"].map (fun l => REvent.logEmit (rstrip l))) ++
        [REvent.raised "Segmentation failed"] ∧
     runProcTrace ["TotalSegmentator"] ⟨["a", "b", "c"], 1⟩ =
      runProcTrace ["skellytour"] ⟨["a", "b", "c"], 1⟩) :=
  ⟨by decide, C4_amended_lines_then_failure _ _ _ (by decide)⟩

/-- C5: the code evaluated at the failing input. In the reachable state
produced by a successful conversion with everything else left at its initial
value, the method is `Skellytour` and the task combo still shows the first
group header — yet the run request is refused by the task validation, spawning
nothing: the task field is consulted (and blocks) even though the method is
Skellytour. -/
theorem C5_skellytour_blocked_by_task_field :
    Reachable convertedState ∧
    convertedState.method_sel = "Skellytour" ∧
    convertedState.nifti_path = some "/out/ct.nii.gz" ∧
    convertedState.ts_task_sel = "--- CT (default) ---" ∧
    step convertedState UIEvent.clickRun =
      (convertedState,
       [UIEffect.warnBox "Invalid Task" "Select a valid TotalSegmentator task"]) :=
  ⟨runTrace_reachable _ _ Reachable.init, rfl, rfl, rfl, by decide⟩

/-- C6: with a volume present, a group-header task is refused before any
worker is spawned, while an `_mr`-suffixed real task logs the advisory and
still spawns the worker normally. -/
theorem C6_header_blocks_mr_advises (s : UIState) (n : String)
    (hn : s.nifti_path = some n) :
    (pyStartsWith s.ts_task_sel "---" = true →
       run_segmentation s =
         (s, [UIEffect.warnBox "Invalid Task" "Select a valid TotalSegmentator task"])) ∧
    (pyStartsWith s.ts_task_sel "---" = false →
     pyEndsWith s.ts_task_sel "_mr" = true →
       (run_segmentation s).2 =
         [UIEffect.spawnSeg ⟨n, s.output_dir.getD "", s.method_sel, s.model_sel,
                             s.device_sel, s.ts_task_sel⟩] ∧
       "⚠ WARNING: MR task selected. Ensure MR input.\n" ∈
         (run_segmentation s).1.logs) := by
  constructor
  · intro hh
    simp [run_segmentation, hn, hh]
  · intro hh hmr
    simp [run_segmentation, hn, hh, hmr, uiLog]

/-- C6 witness: the converted state with the task combo on the header is
refused; the converted state switched to TotalSegmentator and the task
`total_mr` logs the advisory and spawns the worker. -/
theorem C6_witness :
    (run_segmentation convertedState =
      (convertedState,
       [UIEffect.warnBox "Invalid Task" "Select a valid TotalSegmentator task"])) ∧
    ((run_segmentation (runTrace convertedState
        [UIEvent.setMethod "TotalSegmentator", UIEvent.setTask "total_mr"])).2 =
       [UIEffect.spawnSeg ⟨"/out/ct.nii.gz", "/out", "TotalSegmentator", "low",
                           "gpu", "total_mr"⟩] ∧
     "⚠ WARNING: MR task selected. Ensure MR input.\n" ∈
       (run_segmentation (runTrace convertedState
         [UIEvent.setMethod "TotalSegmentator", UIEvent.setTask "total_mr"])).1.logs) :=
  ⟨(C6_header_blocks_mr_advises convertedState "/out/ct.nii.gz" rfl).1 (by decide),
   (C6_header_blocks_mr_advises _ "/out/ct.nii.gz" (by decide)).2 (by decide) (by decide)⟩

/-- C7: a non-Skellytour dispatch logs the task, performs the idempotent
creation of the task-named subdirectory `output_dir/segmentations_<task>` and
only then launches the `TotalSegmentator` executable with input, output and
task flags. -/
theorem C7_totalsegmentator_dispatch (w : SegWorker) (p : Proc)
    (h : w.method = "TotalSegmentator") :
    ∃ rest, segWorkerRun w p =
      WEvent.logEmit ("Running TotalSegmentator (task: " ++ w.ts_task ++ ")") ::
      WEvent.mkdirCall (w.output_dir ++ "/segmentations_" ++ w.ts_task) ::
      WEvent.launch ["TotalSegmentator", "-i", w.nifti_path,
                     "-o", w.output_dir ++ "/segmentations_" ++ w.ts_task,
                     "-ta", w.ts_task] :: rest := by
  have hm : ¬ (w.method = "Skellytour") := by
    rw [h]
    decide
  cases hr : procRaises p with
  | none =>
    refine ⟨(procEmits p.outputLines).map WEvent.logEmit ++ [WEvent.finishedEmit], ?_⟩
    simp [segWorkerRun, hm, run_totalsegmentator, totalsegmentatorCmd, tsOutDir, hr]
  | some e =>
    refine ⟨(procEmits p.outputLines).map WEvent.logEmit ++
             [WEvent.logEmit ("ERROR: " ++ e), WEvent.finishedEmit], ?_⟩
    simp [segWorkerRun, hm, run_totalsegmentator, totalsegmentatorCmd, tsOutDir, hr]

/-- C7 witness: the spec scenario — volume `/out/ct.nii.gz`, output `/out`,
task `total`. -/
theorem C7_witness :
    (SegWorker.method ⟨"/out/ct.nii.gz", "/out", "TotalSegmentator", "low", "gpu",
       "total"⟩ = "TotalSegmentator") ∧
    ∃ rest, segWorkerRun
        ⟨"/out/ct.nii.gz", "/out", "TotalSegmentator", "low", "gpu", "total"⟩
        ⟨[], 0⟩ =
      WEvent.logEmit "Running TotalSegmentator (task: total)" ::
      WEvent.mkdirCall "/out/segmentations_total" ::
      WEvent.launch ["TotalSegmentator", "-i", "/out/ct.nii.gz",
                     "-o", "/out/segmentations_total", "-ta", "total"] :: rest :=
  ⟨rfl, C7_totalsegmentator_dispatch _ ⟨[], 0⟩ rfl⟩

/-- C8 counterexample: from the converted state, switch to TotalSegmentator,
pick the task `total`, start a second conversion (its worker is now in
flight), then click Run Segmentation: the click is not refused — a
segmentation worker is spawned and both workers are active at once. -/
theorem C8_counterexample :
    Reachable (runTrace convertedState
      [UIEvent.setMethod "TotalSegmentator", UIEvent.setTask "total",
       UIEvent.clickConvert]) ∧
    (runTrace convertedState
      [UIEvent.setMethod "TotalSegmentator", UIEvent.setTask "total",
       UIEvent.clickConvert]).conv_active = true ∧
    (step (runTrace convertedState
      [UIEvent.setMethod "TotalSegmentator", UIEvent.setTask "total",
       UIEvent.clickConvert]) UIEvent.clickRun).2 =
      [UIEffect.spawnSeg ⟨"/out/ct.nii.gz", "/out", "TotalSegmentator", "low",
                          "gpu", "total"⟩] ∧
    (step (runTrace convertedState
      [UIEvent.setMethod "TotalSegmentator", UIEvent.setTask "total",
       UIEvent.clickConvert]) UIEvent.clickRun).1.conv_active = true ∧
    (step (runTrace convertedState
      [UIEvent.setMethod "TotalSegmentator", UIEvent.setTask "total",
       UIEvent.clickConvert]) UIEvent.clickRun).1.seg_active = true :=
  ⟨runTrace_reachable _ _ (runTrace_reachable _ _ Reachable.init),
   by decide, by decide, by decide, by decide⟩

/-- C8 (amended): a second start request of the *same* stage while that
stage's worker is in flight is refused — its triggering button is disabled in
every reachable such state, so the click does nothing — but conversion and
segmentation are not mutually exclusive across stages. -/
theorem C8_amended_same_stage_refused (s : UIState) (h : Reachable s) :
    (s.conv_active = true → step s UIEvent.clickConvert = (s, [])) ∧
    (s.seg_active = true → step s UIEvent.clickRun = (s, [])) := by
  have inv := active_button_disabled s h
  constructor
  · intro hc
    simp [step, inv.1 hc]
  · intro hs
    simp [step, inv.2 hs]

/-- C8 witness: right after starting a conversion, a second convert click is
ignored. -/
theorem C8_witness :
    step (runTrace initUI
      [UIEvent.pickDicom "/d", UIEvent.pickOutput "/out", UIEvent.clickConvert])
      UIEvent.clickConvert =
    (runTrace initUI
      [UIEvent.pickDicom "/d", UIEvent.pickOutput "/out", UIEvent.clickConvert],
     []) :=
  (C8_amended_same_stage_refused _ (runTrace_reachable _ _ Reachable.init)).1
    (by decide)

/-- C9: a conversion run whose volume build fails ends in a caught error — a
log line plus a null completion emission, never an escaping fault — writes no
volume file; and the coordinator's handler of that null completion re-enables
the convert button (the stage is retriable), logs the failure, and leaves
`nifti_path` unset. -/
theorem C9_conversion_failure_contained (output_dir : String) (env : ConvEnv)
    (s : UIState) (hfail : env.buildOk = false) (hne : env.seriesIds ≠ [])
    (hn : s.nifti_path = none) :
    convRun output_dir env =
      [CEvent.mkdirOut, CEvent.logEmit "Reading DICOM folder...",
       CEvent.logEmit ("ERROR: " ++ env.buildErr), CEvent.finishedEmit none] ∧
    (∀ p, CEvent.writeFile p ∉ convRun output_dir env) ∧
    (on_nifti_done s none).nifti_path = none ∧
    (on_nifti_done s none).btn_convert_enabled = true ∧
    (on_nifti_done s none).logs = s.logs ++ ["\nNIfTI conversion failed.\n"] := by
  obtain ⟨r, hr, _⟩ := pyMax_firstArgmax (seriesKey env) env.seriesIds hne
  have hb : bestSeries env = some r := hr
  refine ⟨?_, ?_, ?_, ?_, ?_⟩
  · simp [convRun, hb, hfail]
  · intro p
    simp [convRun, hb, hfail]
  · simp [on_nifti_done, uiLog, hn]
  · simp [on_nifti_done, uiLog]
  · simp [on_nifti_done, uiLog]

/-- C9 witness: one series, a failing build, the fresh UI. -/
theorem C9_witness :
    (ConvEnv.buildOk ⟨["s1"], (fun _ => ["f"]), false, "decode error"⟩ = false) ∧
    (ConvEnv.seriesIds ⟨["s1"], (fun _ => ["f"]), false, "decode error"⟩ ≠ []) ∧
    initUI.nifti_path = none ∧
    (convRun "/out" ⟨["s1"], (fun _ => ["f"]), false, "decode error"⟩ =
      [CEvent.mkdirOut, CEvent.logEmit "Reading DICOM folder...",
       CEvent.logEmit "ERROR: decode error", CEvent.finishedEmit none] ∧
     (∀ p, CEvent.writeFile p ∉
        convRun "/out" ⟨["s1"], (fun _ => ["f"]), false, "decode error"⟩) ∧
     (on_nifti_done initUI none).nifti_path = none ∧
     (on_nifti_done initUI none).btn_convert_enabled = true ∧
     (on_nifti_done initUI none).logs =
       initUI.logs ++ ["\nNIfTI conversion failed.\n"]) :=
  ⟨rfl, by decide, rfl,
   C9_conversion_failure_contained "/out" _ initUI rfl (by decide) rfl⟩

/-- C10: whatever the worker's selection and however the external process
behaves, the segmentation worker emits its payload-free `finished` signal
exactly once, as the very last event of its run; and the coordinator's
handler, which cannot observe success or failure, always re-enables the run
button and logs `Done.`. -/
theorem C10_finished_once_uniform (w : SegWorker) (p : Proc) (s : UIState) :
    (segWorkerRun w p).count WEvent.finishedEmit = 1 ∧
    (segWorkerRun w p).getLast? = some WEvent.finishedEmit ∧
    (on_finished s).run_btn_enabled = true ∧
    (on_finished s).logs = s.logs ++ ["\nDone.\n"] := by
  have hnm := finished_not_mem_body w p
  have hrun : segWorkerRun w p =
      (if w.method = "Skellytour" then run_skellytour w p
       else run_totalsegmentator w p).1 ++
      (match procRaises p with
       | none => [WEvent.finishedEmit]
       | some e => [WEvent.logEmit ("ERROR: " ++ e), WEvent.finishedEmit]) := by
    by_cases hm : w.method = "Skellytour" <;>
      cases hp : procRaises p <;>
      simp [segWorkerRun, hm, run_skellytour, run_totalsegmentator, hp]
  refine ⟨?_, ?_, rfl, rfl⟩
  · rw [hrun]
    cases hp : procRaises p <;>
      rw [List.count_append, List.count_eq_zero.mpr hnm] <;> rfl
  · rw [hrun]
    cases hp : procRaises p <;> rw [List.getLast?_append_cons] <;> rfl

end CTSeg
